import Mathlib

/-!
Verification of the notebook glue code of this repository, shallowly embedded
in Lean.  The embedded functions mirror the Python cells: the Athena helper
`execute_athena_query` (its polling loop and its post-loop result handling),
the `try`/`except` cells creating the S3 bucket and the Glue database, the
Excel loader `load_excel_to_df`, the metadata-filter builder used by the
notebooks (modelled from the spec, its Python source being outside this tree),
and the cost helper `get_bedrock_token_based_cost` (likewise modelled from the
spec).
-/

namespace RagNotebooks

/-! ## Athena helper: `execute_athena_query`

The Python helper starts a query, then loops:
`while True: state = poll(); if state in [SUCCEEDED, FAILED, CANCELLED]: break; time.sleep(1)`.
We embed the remote job as a stream `states : Nat → String` giving the state
observed at the n-th poll, and run the loop with explicit fuel (the Python
loop is unbounded; the fuel makes the embedding total while letting us state
that no amount of fuel makes the loop exit when no terminal state appears).
The loop result is the index of the poll that broke the loop together with
the list of sleep durations (seconds) performed before that poll. -/

/-- Terminal query states recognised by the loop's break condition. -/
def isTerminalState (s : String) : Bool :=
  s == "SUCCEEDED" || s == "FAILED" || s == "CANCELLED"

/-- One pass of the polling loop, starting at poll index `k` with the given
fuel: observe `states k`; break when terminal, else sleep 1 second and
re-poll. -/
def pollLoopAux (states : Nat → String) : Nat → Nat → Option (Nat × List Nat)
  | _, 0 => none
  | k, fuel + 1 =>
    if isTerminalState (states k) then some (k, [])
    else
      match pollLoopAux states (k + 1) fuel with
      | none => none
      | some (n, sleeps) => some (n, 1 :: sleeps)

/-- The wait phase of `execute_athena_query`: poll from index 0. -/
def execute_athena_query_wait (states : Nat → String) (fuel : Nat) :
    Option (Nat × List Nat) :=
  pollLoopAux states 0 fuel

/-- A field of an Athena result row: `Some v` when the field dict carries a
`VarCharValue`, `none` when it is absent. -/
abbrev AthenaField := Option String

/-- The row-collection loop of `execute_athena_query`: for each page, for each
row, append `[field.get('VarCharValue', '') for field in row['Data']]`. -/
def collect_results (pages : List (List (List AthenaField))) :
    List (List String) :=
  pages.foldl
    (fun acc page =>
      page.foldl (fun acc2 row => acc2 ++ [row.map (fun f => f.getD "")]) acc)
    []

/-- The displayed DataFrame: first collected row as column headers, remaining
rows as data. -/
structure DataFrame where
  columns : List String
  rows : List (List String)
deriving DecidableEq, Repr

/-- What the success branch of `execute_athena_query` shows. -/
inductive AthenaDisplay where
  | table (df : DataFrame)
  | message (msg : String)
deriving DecidableEq, Repr

/-- The post-loop phase of `execute_athena_query`: on `SUCCEEDED` collect the
paginated rows and either display a DataFrame or print
"Successfully executed."; otherwise raise with the remote
`StateChangeReason`, defaulting to "No error message available". -/
def execute_athena_query_post (state : String) (reason : Option String)
    (pages : List (List (List AthenaField))) : Except String AthenaDisplay :=
  if state = "SUCCEEDED" then
    let results := collect_results pages
    match results with
    | [] => .ok (.message "Successfully executed.")
    | header :: rest => .ok (.table { columns := header, rows := rest })
  else
    .error ("Query failed: " ++ reason.getD "No error message available")

/-! ## Resource-creation cells (S3 bucket, Glue database)

Each cell wraps one remote create call in `try`/`except` catching exactly one
exception type.  We embed the outcome of the remote call as an
`Except AwsError Unit` and the cell as a function from that outcome to either
a printed message (`.ok`) or a propagated exception (`.error`). -/

/-- Exception types that the remote services may raise. `otherError` stands
for any exception other than the two the notebooks name. -/
inductive AwsError where
  | bucketAlreadyOwnedByYou
  | alreadyExistsException
  | otherError (name : String)
deriving DecidableEq, Repr

/-- The bucket-creation cell: `try: s3.create_bucket(...)` with
`except s3.exceptions.BucketAlreadyOwnedByYou: print(...)`. -/
def create_bucket_cell (callResult : Except AwsError Unit) :
    Except AwsError String :=
  match callResult with
  | .ok _ => .ok "S3 bucket created"
  | .error .bucketAlreadyOwnedByYou => .ok "S3 bucket already exists"
  | .error e => .error e

/-- The database-creation cell: `try: glue_client.create_database(...)` with
`except glue_client.exceptions.AlreadyExistsException: print(...)`. -/
def create_database_cell (db_name : String)
    (callResult : Except AwsError Unit) : Except AwsError String :=
  match callResult with
  | .ok _ => .ok ("Successfully created database: " ++ db_name)
  | .error .alreadyExistsException =>
    .ok ("Database " ++ db_name ++ " already exists")
  | .error e => .error e

/-! ## Metadata filter builder

Modelled from the spec: `create_standard_filter` and `query_financial_data`
are defined in `advanced_rag_utils.py`, which is not part of this tree (the
notebooks only call them).  Per the spec, the builder takes optional criteria
(company, year(s), docType, page bounds, S3 URI prefix), emits one leaf
`\x7bfield, operator, value\x7d` per supplied criterion — a year list becoming
an OR-set of equality leaves and a continuous year range a min/max pair — and
combines the supplied conditions conjunctively with an AND node. -/

/-- Operators of the Bedrock metadata-filter language; the spec's data model
says the notebooks only ever use equals, greaterThanOrEquals,
lessThanOrEquals and startsWith. -/
inductive FOp where
  | equals
  | notEquals
  | greaterThan
  | greaterThanOrEquals
  | lessThan
  | lessThanOrEquals
  | startsWith
  | stringContains
deriving DecidableEq, Repr

/-- The operators the spec's data model allows notebook filters to use. -/
def opAllowed : FOp → Bool
  | .equals => true
  | .greaterThanOrEquals => true
  | .lessThanOrEquals => true
  | .startsWith => true
  | _ => false

/-- A filter leaf value: string or number. -/
inductive FValue where
  | str (s : String)
  | num (n : Int)
deriving DecidableEq, Repr

/-- Modelled from the spec: a metadata filter expression is a tagged tree
whose leaves are `\x7bfield, operator, value\x7d` and whose internal nodes
combine child filters (`andAll`; `orAll` holds the OR-set a year list is
translated to). -/
inductive FilterExpr where
  | leaf (field : String) (op : FOp) (value : FValue)
  | andAll (children : List FilterExpr)
  | orAll (children : List FilterExpr)

/-- A document chunk's metadata attributes, as the filters address them. -/
structure Chunk where
  company : String
  year : Int
  docType : String
  page : Int
  sourceUri : String
deriving DecidableEq, Repr

/-- The metadata attribute a filter field name selects on a chunk. -/
def fieldValue (c : Chunk) (f : String) : Option FValue :=
  if f = "company" then some (.str c.company)
  else if f = "year" then some (.num c.year)
  else if f = "docType" then some (.str c.docType)
  else if f = "page" then some (.num c.page)
  else if f = "x-amz-bedrock-kb-source-uri" then some (.str c.sourceUri)
  else none

/-- Semantics of one filter leaf on a chunk. -/
def evalLeaf (c : Chunk) (f : String) (op : FOp) (v : FValue) : Bool :=
  match fieldValue c f, op, v with
  | some (.str s), .equals, .str t => s == t
  | some (.num a), .equals, .num b => a == b
  | some (.str s), .notEquals, .str t => !(s == t)
  | some (.num a), .notEquals, .num b => !(a == b)
  | some (.num a), .greaterThan, .num b => decide (b < a)
  | some (.num a), .greaterThanOrEquals, .num b => decide (b ≤ a)
  | some (.num a), .lessThan, .num b => decide (a < b)
  | some (.num a), .lessThanOrEquals, .num b => decide (a ≤ b)
  | some (.str s), .startsWith, .str t => t.isPrefixOf s
  | some (.str s), .stringContains, .str t => (s.splitOn t).length != 1
  | _, _, _ => false

mutual

/-- A chunk satisfies a filter tree: leaves by `evalLeaf`, AND nodes when all
children hold, OR nodes when some child holds. -/
def satisfies (c : Chunk) : FilterExpr → Bool
  | .leaf f op v => evalLeaf c f op v
  | .andAll l => satisfiesAll c l
  | .orAll l => satisfiesAny c l

/-- All filters in the list hold for the chunk. -/
def satisfiesAll (c : Chunk) : List FilterExpr → Bool
  | [] => true
  | f :: fs => satisfies c f && satisfiesAll c fs

/-- Some filter in the list holds for the chunk. -/
def satisfiesAny (c : Chunk) : List FilterExpr → Bool
  | [] => false
  | f :: fs => satisfies c f || satisfiesAny c fs

end

mutual

/-- The tree shape claimed by the spec's data model: leaves drawn from the
allowed operators, internal nodes only logical-AND. -/
def andOnlyShape : FilterExpr → Bool
  | .leaf _ op _ => opAllowed op
  | .andAll l => andOnlyShapeList l
  | .orAll _ => false

/-- `andOnlyShape` on every member of a list. -/
def andOnlyShapeList : List FilterExpr → Bool
  | [] => true
  | f :: fs => andOnlyShape f && andOnlyShapeList fs

end

mutual

/-- Well-formed tagged tree: leaves drawn from the allowed operators,
internal nodes logical-AND or logical-OR. -/
def wellFormedFilter : FilterExpr → Bool
  | .leaf _ op _ => opAllowed op
  | .andAll l => wellFormedList l
  | .orAll l => wellFormedList l

/-- `wellFormedFilter` on every member of a list. -/
def wellFormedList : List FilterExpr → Bool
  | [] => true
  | f :: fs => wellFormedFilter f && wellFormedList fs

end

/-- A year criterion: a single year, a list of years, or a continuous
min/max range. -/
inductive YearCrit where
  | single (y : Int)
  | list (ys : List Int)
  | range (lo hi : Int)
deriving DecidableEq, Repr

/-- The optional criteria `query_financial_data` accepts
(`create_standard_filter` supplies only docType and a single year).  The
field `s3Pref` embeds the builder's `s3_prefix` parameter. -/
structure QueryCriteria where
  company : Option String
  year : Option YearCrit
  docType : Option String
  min_page : Option Int
  max_page : Option Int
  s3Pref : Option String
deriving DecidableEq, Repr

/-- The condition a year criterion contributes: an equality leaf, an OR-set
of equality leaves, or a min/max pair of range leaves. -/
def yearFilter : YearCrit → FilterExpr
  | .single y => .leaf "year" .equals (.num y)
  | .list ys => .orAll (ys.map fun y => .leaf "year" .equals (.num y))
  | .range lo hi =>
    .andAll [.leaf "year" .greaterThanOrEquals (.num lo),
             .leaf "year" .lessThanOrEquals (.num hi)]

/-- One condition subtree per supplied criterion, in parameter order. -/
def filterConds (q : QueryCriteria) : List FilterExpr :=
  (q.company.map fun v => FilterExpr.leaf "company" .equals (.str v)).toList ++
  (q.year.map yearFilter).toList ++
  (q.docType.map fun v => FilterExpr.leaf "docType" .equals (.str v)).toList ++
  (q.min_page.map fun p =>
    FilterExpr.leaf "page" .greaterThanOrEquals (.num p)).toList ++
  (q.max_page.map fun p =>
    FilterExpr.leaf "page" .lessThanOrEquals (.num p)).toList ++
  (q.s3Pref.map fun v =>
    FilterExpr.leaf "x-amz-bedrock-kb-source-uri" .startsWith (.str v)).toList

/-- Modelled from the spec: the builder combines the supplied conditions
conjunctively — no criterion yields no filter, a single condition stands
alone, several are wrapped in an AND node. -/
def build_metadata_filter (q : QueryCriteria) : Option FilterExpr :=
  match filterConds q with
  | [] => none
  | [c] => some c
  | cs => some (.andAll cs)

/-- What a year criterion requires of a chunk's year. -/
def yearHolds (yc : YearCrit) (y : Int) : Prop :=
  match yc with
  | .single v => y = v
  | .list vs => y ∈ vs
  | .range lo hi => lo ≤ y ∧ y ≤ hi

/-- The spec-side reading of the criteria: every supplied criterion holds of
the chunk, an absent criterion imposing no constraint. -/
def criteriaHold (q : QueryCriteria) (c : Chunk) : Prop :=
  (∀ v ∈ q.company, c.company = v) ∧
  (∀ yc ∈ q.year, yearHolds yc c.year) ∧
  (∀ v ∈ q.docType, c.docType = v) ∧
  (∀ p ∈ q.min_page, p ≤ c.page) ∧
  (∀ p ∈ q.max_page, c.page ≤ p) ∧
  (∀ v ∈ q.s3Pref, v.isPrefixOf c.sourceUri = true)

/-- The criteria of the notebook call
`query_financial_data(company="Amazon", year=[2023, 2024])`. -/
def amazonYearsCriteria : QueryCriteria :=
  { company := some "Amazon", year := some (.list [2023, 2024]),
    docType := none, min_page := none, max_page := none, s3Pref := none }

/-- The filter tree the modelled builder produces for `amazonYearsCriteria`. -/
def amazonYearsFilterTree : FilterExpr :=
  .andAll [.leaf "company" .equals (.str "Amazon"),
    .orAll [.leaf "year" .equals (.num 2023),
            .leaf "year" .equals (.num 2024)]]

/-! ## Cost helper `get_bedrock_token_based_cost`

Modelled from the spec: the helper is defined in `advanced_rag_utils.py`,
which is not part of this tree.  Per the spec it queries a
metrics/monitoring API (CloudWatch) for the token counts of the model over
the given time interval and multiplies them by a static price table; the
call sites read the fields "duration in minutes", "input_tokens",
"invocation_count" and "total token costs" from the returned report. -/

/-- The token counts the monitoring API reports for an interval. -/
structure TokenMetrics where
  input_tokens : Nat
  invocation_count : Nat
deriving DecidableEq, Repr

/-- Modelled from the spec: the static price table (dollars per input token;
the concrete prices are not recorded in this tree, these are
representative). -/
def bedrock_token_price (model_id : String) : Rat :=
  if model_id = "amazon.titan-embed-text-v2:0" then 2 / 100000000
  else if model_id = "anthropic.claude-3-5-haiku-20241022-v1:0"
    then 8 / 10000000
  else 1 / 1000000

/-- Modelled from the spec: `get_bedrock_token_based_cost` queries the
monitoring API (`metrics`) for the token counts of `model_id` between
`start_time` and `end_time` (seconds) and reports the interval length in
minutes, the retrieved counts, and the counts multiplied by the static price
table. -/
def get_bedrock_token_based_cost
    (metrics : String → Nat → Nat → TokenMetrics) (model_id : String)
    (start_time end_time : Nat) : List (String × Rat) :=
  let m := metrics model_id start_time end_time
  [("duration in minutes", ((end_time : Rat) - (start_time : Rat)) / 60),
   ("input_tokens", (m.input_tokens : Rat)),
   ("invocation_count", (m.invocation_count : Rat)),
   ("total token costs",
     (m.input_tokens : Rat) * bedrock_token_price model_id)]

/-! ## Excel loader `load_excel_to_df`

The helper reads an Excel workbook from S3, loads its FIRST sheet
(`sheet_name=excel_file.sheet_names[0]`) into a DataFrame and normalizes the
column names by `.str.replace(' ', '_')`, then `.str.strip()`, then
`.str.lower()`.  Strings are embedded as lists of Unicode code points so the
character-level effect of the three operations is explicit. -/

/-- Whitespace code points removed by `.str.strip()`. -/
def isWsCode (c : Nat) : Bool :=
  c == 32 || c == 9 || c == 10 || c == 13

/-- `.str.replace(' ', '_')`: every space (32) becomes an underscore (95). -/
def replaceSpaces (s : List Nat) : List Nat :=
  s.map fun c => if c == 32 then 95 else c

/-- `.str.strip()`: drop leading and trailing whitespace. -/
def stripEnds (s : List Nat) : List Nat :=
  ((s.dropWhile isWsCode).reverse.dropWhile isWsCode).reverse

/-- `.str.lower()` on one code point: ASCII uppercase mapped down. -/
def lowerCode (c : Nat) : Nat :=
  if 65 ≤ c ∧ c ≤ 90 then c + 32 else c

/-- `.str.lower()` on a string. -/
def lowerStr (s : List Nat) : List Nat :=
  s.map lowerCode

/-- The column normalization of `load_excel_to_df`, in source order:
replace spaces, then strip, then lowercase. -/
def clean_columns (cols : List (List Nat)) : List (List Nat) :=
  ((cols.map replaceSpaces).map stripEnds).map lowerStr

/-- A sheet of the workbook: its column names and its cell data. -/
structure Sheet where
  colNames : List (List Nat)
  cells : List (List (List Nat))
deriving DecidableEq, Repr

/-- The DataFrame `load_excel_to_df` returns. -/
structure ExcelDF where
  columns : List (List Nat)
  rows : List (List (List Nat))
deriving DecidableEq, Repr

/-- Reading one sheet into a DataFrame with normalized column names. -/
def process_first_sheet (s : Sheet) : ExcelDF :=
  { columns := clean_columns s.colNames, rows := s.cells }

/-- `load_excel_to_df`: read the workbook's first sheet
(`sheet_names[0]`); a workbook with no sheet at all cannot be read. -/
def load_excel_to_df (workbook : List Sheet) : Option ExcelDF :=
  match workbook with
  | [] => none
  | first :: _ => some (process_first_sheet first)

/-- A concrete chunk used to instantiate the filter theorems. -/
def exampleChunk : Chunk :=
  { company := "Amazon", year := 2024, docType := "10K Report",
    page := 7, sourceUri := "s3://bucket/data/pdf_documents/doc.pdf" }

/-- A concrete remote-job trace: RUNNING twice, then SUCCEEDED. -/
def exampleStates : Nat → String :=
  fun n => if n < 2 then "RUNNING" else "SUCCEEDED"

/-- A concrete one-sheet workbook: column names " Ab " and "Year No". -/
def exampleSheet : Sheet :=
  { colNames := [[32, 65, 98, 32], [89, 101, 97, 114, 32, 78, 111]],
    cells := [[[49], [50]]] }

/-! Helper lemmas about the polling loop. -/

lemma pollLoopAux_sound (states : Nat → String) :
    ∀ fuel k n sleeps, pollLoopAux states k fuel = some (n, sleeps) →
      k ≤ n ∧ isTerminalState (states n) = true ∧
      (∀ j, k ≤ j → j < n → isTerminalState (states j) = false) ∧
      sleeps = List.replicate (n - k) 1 := by
  intro fuel
  induction fuel with
  | zero => intro k n sleeps h; simp [pollLoopAux] at h
  | succ m ih =>
    intro k n sleeps h
    by_cases hterm : isTerminalState (states k) = true
    · simp [pollLoopAux, hterm] at h
      obtain ⟨hn, hs⟩ := h
      subst hn; subst hs
      refine ⟨le_refl _, hterm, ?_, by simp⟩
      intro j hkj hjk
      omega
    · simp [pollLoopAux, hterm] at h
      rcases hrec : pollLoopAux states (k + 1) m with _ | p
      · rw [hrec] at h; simp at h
      · rw [hrec] at h
        obtain ⟨n', sl'⟩ := p
        simp at h
        obtain ⟨hn, hs⟩ := h
        obtain ⟨hle, hterm', hfirst, hsl⟩ := ih (k + 1) n' sl' hrec
        subst hn
        constructor
        · omega
        refine ⟨hterm', ?_, ?_⟩
        · intro j hkj hjn
          rcases Nat.eq_or_lt_of_le hkj with heq | hlt
          · subst heq
            simpa using hterm
          · exact hfirst j hlt hjn
        · subst hsl hs
          have hrepl : n' - k = (n' - (k + 1)) + 1 := by omega
          rw [hrepl, List.replicate_succ]

lemma pollLoopAux_complete (states : Nat → String) :
    ∀ fuel k n, k ≤ n → n < k + fuel → isTerminalState (states n) = true →
      ∃ m sleeps, pollLoopAux states k fuel = some (m, sleeps) ∧ m ≤ n := by
  intro fuel
  induction fuel with
  | zero => intro k n h1 h2; omega
  | succ m ih =>
    intro k n h1 h2 hterm
    by_cases hk : isTerminalState (states k) = true
    · exact ⟨k, [], by simp [pollLoopAux, hk], h1⟩
    · have hkn : k ≠ n := by
        intro heq; subst heq; exact hk hterm
      obtain ⟨m', sleeps, hres, hle⟩ :=
        ih (k + 1) n (by omega) (by omega) hterm
      refine ⟨m', 1 :: sleeps, ?_, hle⟩
      simp [pollLoopAux, hk, hres]

lemma pollLoopAux_no_terminal (states : Nat → String)
    (h : ∀ j, isTerminalState (states j) = false) :
    ∀ fuel k, pollLoopAux states k fuel = none := by
  intro fuel
  induction fuel with
  | zero => intro k; simp [pollLoopAux]
  | succ m ih => intro k; simp [pollLoopAux, h k, ih (k + 1)]

/-! Helper lemmas about the row-collection loop. -/

lemma page_foldl_eq (rows : List (List AthenaField)) (a : List (List String)) :
    rows.foldl (fun a2 row => a2 ++ [row.map (fun f => f.getD "")]) a =
    a ++ rows.map (fun row => row.map (fun f => f.getD "")) := by
  induction rows generalizing a with
  | nil => simp
  | cons r rs ih => simp [ih, List.append_assoc]

lemma collect_results_aux (ps : List (List (List AthenaField)))
    (acc : List (List String)) :
    ps.foldl (fun a page =>
        page.foldl (fun a2 row => a2 ++ [row.map (fun f => f.getD "")]) a)
      acc =
    acc ++ (ps.map (fun page =>
      page.map (fun row => row.map (fun f => f.getD "")))).flatten := by
  induction ps generalizing acc with
  | nil => simp
  | cons p rest ih =>
    rw [List.foldl_cons, page_foldl_eq, ih, List.map_cons, List.flatten_cons,
      List.append_assoc]

/-! Helper lemmas about the filter semantics. -/

lemma evalLeaf_company (c : Chunk) (v : String) :
    evalLeaf c "company" .equals (.str v) = (c.company == v) := rfl

lemma evalLeaf_docType (c : Chunk) (v : String) :
    evalLeaf c "docType" .equals (.str v) = (c.docType == v) := rfl

lemma evalLeaf_year_eq (c : Chunk) (y : Int) :
    evalLeaf c "year" .equals (.num y) = (c.year == y) := rfl

lemma evalLeaf_year_ge (c : Chunk) (y : Int) :
    evalLeaf c "year" .greaterThanOrEquals (.num y) = decide (y ≤ c.year) :=
  rfl

lemma evalLeaf_year_le (c : Chunk) (y : Int) :
    evalLeaf c "year" .lessThanOrEquals (.num y) = decide (c.year ≤ y) := rfl

lemma evalLeaf_page_ge (c : Chunk) (p : Int) :
    evalLeaf c "page" .greaterThanOrEquals (.num p) = decide (p ≤ c.page) :=
  rfl

lemma evalLeaf_page_le (c : Chunk) (p : Int) :
    evalLeaf c "page" .lessThanOrEquals (.num p) = decide (c.page ≤ p) := rfl

lemma evalLeaf_uri (c : Chunk) (v : String) :
    evalLeaf c "x-amz-bedrock-kb-source-uri" .startsWith (.str v) =
      v.isPrefixOf c.sourceUri := rfl

lemma satisfiesAll_append (c : Chunk) (a b : List FilterExpr) :
    satisfiesAll c (a ++ b) = (satisfiesAll c a && satisfiesAll c b) := by
  induction a with
  | nil => simp [satisfiesAll]
  | cons f fs ih => simp [satisfiesAll, ih, Bool.and_assoc]

lemma satisfiesAll_opt {α : Type} (c : Chunk) (o : Option α)
    (g : α → FilterExpr) :
    satisfiesAll c ((o.map g).toList) = true ↔
      ∀ v ∈ o, satisfies c (g v) = true := by
  cases o <;> simp [satisfiesAll]

lemma satisfiesAny_year_list (c : Chunk) (ys : List Int) :
    satisfiesAny c (ys.map fun y => .leaf "year" .equals (.num y)) = true ↔
      c.year ∈ ys := by
  induction ys with
  | nil => simp [satisfiesAny]
  | cons y t ih => simp [satisfiesAny, satisfies, evalLeaf_year_eq, ih]

lemma yearFilter_sat (c : Chunk) (yc : YearCrit) :
    satisfies c (yearFilter yc) = true ↔ yearHolds yc c.year := by
  cases yc with
  | single y => simp [yearFilter, satisfies, evalLeaf_year_eq, yearHolds]
  | list ys =>
    simp [yearFilter, satisfies, yearHolds, satisfiesAny_year_list]
  | range lo hi =>
    simp [yearFilter, satisfies, satisfiesAll, evalLeaf_year_ge,
      evalLeaf_year_le, yearHolds]

lemma filterConds_sat (q : QueryCriteria) (c : Chunk) :
    satisfiesAll c (filterConds q) = true ↔ criteriaHold q c := by
  unfold filterConds criteriaHold
  simp only [satisfiesAll_append, Bool.and_eq_true, satisfiesAll_opt]
  simp [satisfies, yearFilter_sat, evalLeaf_company, evalLeaf_docType,
    evalLeaf_page_ge, evalLeaf_page_le, evalLeaf_uri]
  tauto

lemma wellFormedList_append (a b : List FilterExpr) :
    wellFormedList (a ++ b) = (wellFormedList a && wellFormedList b) := by
  induction a with
  | nil => simp [wellFormedList]
  | cons f fs ih => simp [wellFormedList, ih, Bool.and_assoc]

lemma wellFormedList_year_leaves (ys : List Int) :
    wellFormedList (ys.map fun y => .leaf "year" .equals (.num y)) = true := by
  induction ys with
  | nil => rfl
  | cons y t ih => simpa [wellFormedList, wellFormedFilter, opAllowed] using ih

lemma wellFormed_yearFilter (yc : YearCrit) :
    wellFormedFilter (yearFilter yc) = true := by
  cases yc with
  | single y => rfl
  | list ys =>
    simpa [yearFilter, wellFormedFilter] using wellFormedList_year_leaves ys
  | range lo hi => rfl

lemma wellFormedList_opt {α : Type} (o : Option α) (g : α → FilterExpr)
    (h : ∀ v, wellFormedFilter (g v) = true) :
    wellFormedList ((o.map g).toList) = true := by
  cases o <;> simp [wellFormedList, h]

lemma wellFormed_filterConds (q : QueryCriteria) :
    wellFormedList (filterConds q) = true := by
  unfold filterConds
  simp only [wellFormedList_append, Bool.and_eq_true]
  refine ⟨⟨⟨⟨⟨?_, ?_⟩, ?_⟩, ?_⟩, ?_⟩, ?_⟩ <;>
    first
      | exact wellFormedList_opt _ _ (fun v => rfl)
      | exact wellFormedList_opt _ _ wellFormed_yearFilter

/-! Helper lemmas about the column normalization. -/

lemma mem_of_mem_dropWhile {α : Type} (p : α → Bool) :
    ∀ (l : List α) (x : α), x ∈ l.dropWhile p → x ∈ l := by
  intro l
  induction l with
  | nil => intro x h; simp [List.dropWhile] at h
  | cons a t ih =>
    intro x h
    rw [List.dropWhile_cons] at h
    by_cases hp : p a = true
    · simp [hp] at h
      exact List.mem_cons_of_mem a (ih x h)
    · simp [hp] at h
      simpa using h

lemma mem_of_mem_stripEnds (s : List Nat) (x : Nat)
    (h : x ∈ stripEnds s) : x ∈ s := by
  unfold stripEnds at h
  rw [List.mem_reverse] at h
  have h2 := mem_of_mem_dropWhile isWsCode _ x h
  rw [List.mem_reverse] at h2
  exact mem_of_mem_dropWhile isWsCode _ x h2

lemma replaceSpaces_no_space (s : List Nat) (x : Nat)
    (h : x ∈ replaceSpaces s) : x ≠ 32 := by
  unfold replaceSpaces at h
  rw [List.mem_map] at h
  obtain ⟨c, _, hc⟩ := h
  by_cases h32 : c == 32
  · simp [h32] at hc; omega
  · simp [h32] at hc
    subst hc
    simpa using h32

lemma lowerCode_ne_space (c : Nat) (h : c ≠ 32) : lowerCode c ≠ 32 := by
  unfold lowerCode
  split <;> omega

lemma lowerCode_not_upper (c : Nat) :
    ¬(65 ≤ lowerCode c ∧ lowerCode c ≤ 90) := by
  unfold lowerCode
  split <;> omega

end RagNotebooks

open RagNotebooks

/-- C1: the wait of `execute_athena_query` is a fixed-interval polling loop on
the job state: whenever the loop exits it does so at the first poll observing
a state in \x7bSUCCEEDED, FAILED, CANCELLED\x7d, having slept exactly 1 second
on every earlier (non-terminal) iteration; it always exits once a terminal
state is observed (given enough fuel); and when no terminal state is ever
observed no amount of fuel makes it exit — there is no timeout, cancellation,
or iteration bound. -/
theorem execute_athena_query_polling_loop :
    (∀ states fuel n sleeps,
        execute_athena_query_wait states fuel = some (n, sleeps) →
        isTerminalState (states n) = true ∧
        (∀ j, j < n → isTerminalState (states j) = false) ∧
        sleeps = List.replicate n 1) ∧
    (∀ states fuel n, n < fuel → isTerminalState (states n) = true →
        ∃ m sleeps, execute_athena_query_wait states fuel = some (m, sleeps) ∧
          m ≤ n) ∧
    (∀ states fuel, (∀ j, isTerminalState (states j) = false) →
        execute_athena_query_wait states fuel = none) := by
  refine ⟨?_, ?_, ?_⟩
  · intro states fuel n sleeps h
    obtain ⟨_, hterm, hfirst, hsl⟩ := pollLoopAux_sound states fuel 0 n sleeps h
    exact ⟨hterm, fun j hj => hfirst j (Nat.zero_le j) hj, by simpa using hsl⟩
  · intro states fuel n hn hterm
    exact pollLoopAux_complete states fuel 0 n (Nat.zero_le n) (by omega) hterm
  · intro states fuel h
    exact pollLoopAux_no_terminal states h fuel 0

/-- Witness for C1: on the trace RUNNING, RUNNING, SUCCEEDED the loop exits at
poll index 2 after two 1-second sleeps. -/
theorem execute_athena_query_polling_loop_witness :
    isTerminalState (exampleStates 2) = true ∧
    (∀ j, j < 2 → isTerminalState (exampleStates j) = false) ∧
    ([1, 1] : List Nat) = List.replicate 2 1 :=
  execute_athena_query_polling_loop.1 exampleStates 5 2 [1, 1] (by decide)

/-- C2: given the terminal state the loop broke on, `execute_athena_query`
raises iff that state is not SUCCEEDED; the raised message is
"Query failed: " followed by the remote `StateChangeReason`, or by
"No error message available" when that field is absent; on SUCCEEDED no
exception is raised. -/
theorem execute_athena_query_error_surface (state : String)
    (hterm : isTerminalState state = true) (reason : Option String)
    (pages : List (List (List AthenaField))) :
    ((∃ e, execute_athena_query_post state reason pages = .error e) ↔
      state ≠ "SUCCEEDED") ∧
    (state ≠ "SUCCEEDED" →
      execute_athena_query_post state reason pages =
        .error ("Query failed: " ++ reason.getD "No error message available")) ∧
    (state = "SUCCEEDED" →
      ∃ d, execute_athena_query_post state reason pages = .ok d) := by
  refine ⟨?_, ?_, ?_⟩
  · constructor
    · rintro ⟨e, he⟩ hsucc
      subst hsucc
      rcases hres : collect_results pages with _ | ⟨h0, t0⟩ <;>
        simp [execute_athena_query_post, hres] at he
    · intro hne
      refine ⟨"Query failed: " ++ reason.getD "No error message available", ?_⟩
      simp [execute_athena_query_post, hne]
  · intro hne
    simp [execute_athena_query_post, hne]
  · intro hsucc
    subst hsucc
    rcases hres : collect_results pages with _ | ⟨h0, t0⟩
    · exact ⟨.message "Successfully executed.",
        by simp [execute_athena_query_post, hres]⟩
    · exact ⟨.table { columns := h0, rows := t0 },
        by simp [execute_athena_query_post, hres]⟩

/-- Witness for C2: terminal state FAILED with reason "boom" raises
"Query failed: boom"; terminal state SUCCEEDED raises nothing. -/
theorem execute_athena_query_error_surface_witness :
    execute_athena_query_post "FAILED" (some "boom") [] =
      .error ("Query failed: " ++ (some "boom").getD "No error message available")
    ∧ ∃ d, execute_athena_query_post "SUCCEEDED" (some "boom") [] = .ok d :=
  ⟨(execute_athena_query_error_surface "FAILED" (by decide) (some "boom")
      []).2.1 (by decide),
   (execute_athena_query_error_surface "SUCCEEDED" (by decide) (some "boom")
      []).2.2 rfl⟩

/-- C8: on SUCCEEDED, the rows collected by the pagination loop are exactly
all rows of all pages with each field mapped to its VarCharValue (missing
values replaced by the empty string); when at least one row was collected the
first row becomes the DataFrame columns and the rest its data, and when no
row was collected only "Successfully executed." is printed. -/
theorem execute_athena_query_success_shape (reason : Option String)
    (pages : List (List (List AthenaField))) :
    collect_results pages =
      (pages.map (fun page =>
        page.map (fun row => row.map (fun f => f.getD "")))).flatten ∧
    (collect_results pages = [] →
      execute_athena_query_post "SUCCEEDED" reason pages =
        .ok (.message "Successfully executed.")) ∧
    (∀ header rest, collect_results pages = header :: rest →
      execute_athena_query_post "SUCCEEDED" reason pages =
        .ok (.table { columns := header, rows := rest })) := by
  refine ⟨?_, ?_, ?_⟩
  · simpa using collect_results_aux pages []
  · intro hempty
    simp [execute_athena_query_post, hempty]
  · intro header rest hres
    simp [execute_athena_query_post, hres]

/-- Witness for C8: a concrete two-page result set with a missing
VarCharValue; the first row becomes the header of the displayed DataFrame. -/
theorem execute_athena_query_success_shape_witness :
    execute_athena_query_post "SUCCEEDED" none
        [[[some "id", some "name"]], [[some "1", none]]] =
      .ok (.table { columns := ["id", "name"], rows := [["1", ""]] }) :=
  (execute_athena_query_success_shape none
      [[[some "id", some "name"]], [[some "1", none]]]).2.2
    ["id", "name"] [["1", ""]] (by decide)

/-- C6: an "already exists" error is caught and turned into a printed message
rather than a propagated exception, and only that specific exception type is
caught: the bucket cell catches exactly BucketAlreadyOwnedByYou, the database
cell catches exactly AlreadyExistsException, and every other exception from
these calls propagates unchanged. -/
theorem create_cells_catch_only_already_exists :
    (∀ e : AwsError,
      create_bucket_cell (.error e) =
        if e = .bucketAlreadyOwnedByYou then .ok "S3 bucket already exists"
        else .error e) ∧
    (∀ (db : String) (e : AwsError),
      create_database_cell db (.error e) =
        if e = .alreadyExistsException
        then .ok ("Database " ++ db ++ " already exists")
        else .error e) := by
  constructor
  · intro e
    cases e <;> simp [create_bucket_cell]
  · intro db e
    cases e <;> simp [create_database_cell]

/-- C3: a chunk satisfies the filter the builder produces iff every supplied
criterion holds for it — conjunctive semantics, an absent criterion imposing
no constraint (in particular, when no criterion is supplied no filter is
built and every chunk trivially qualifies), a year list becoming an OR-set of
equality leaves and a continuous year range a min/max pair. -/
theorem filter_builder_conjunctive_semantics (q : QueryCriteria) (c : Chunk) :
    (∀ f, build_metadata_filter q = some f →
      (satisfies c f = true ↔ criteriaHold q c)) ∧
    (build_metadata_filter q = none → criteriaHold q c) := by
  constructor
  · intro f hf
    unfold build_metadata_filter at hf
    rcases hc : filterConds q with _ | ⟨a, t⟩
    · rw [hc] at hf; simp at hf
    · rcases t with _ | ⟨b, t2⟩
      · rw [hc] at hf
        simp at hf
        subst hf
        have hsat := filterConds_sat q c
        rw [hc] at hsat
        simpa [satisfiesAll] using hsat
      · rw [hc] at hf
        simp at hf
        subst hf
        have hsat := filterConds_sat q c
        rw [hc] at hsat
        simpa [satisfies] using hsat
  · intro hnone
    unfold build_metadata_filter at hnone
    rcases hc : filterConds q with _ | ⟨a, t⟩
    · have hsat := filterConds_sat q c
      rw [hc] at hsat
      simpa [satisfiesAll] using hsat
    · rw [hc] at hnone
      rcases t with _ | _ <;> simp at hnone

/-- Witness for C3: for the notebook call with company "Amazon" and years
[2023, 2024], a chunk satisfies the built filter iff both criteria hold of
it. -/
theorem filter_builder_conjunctive_semantics_witness :
    satisfies exampleChunk amazonYearsFilterTree = true ↔
      criteriaHold amazonYearsCriteria exampleChunk :=
  (filter_builder_conjunctive_semantics amazonYearsCriteria
    exampleChunk).1 amazonYearsFilterTree rfl

/-- C4: the filter built with year=[2023, 2024] and company="Amazon"
serializes to an AND node whose two children are an OR-of-equals over the
two year values and an equals leaf on the company field (the claim fixes the
children as a set; the builder emits them in parameter order). -/
theorem amazon_years_filter_serialization :
    ∃ children,
      build_metadata_filter amazonYearsCriteria =
        some (.andAll children) ∧
      children.Perm
        [FilterExpr.orAll [.leaf "year" .equals (.num 2023),
                           .leaf "year" .equals (.num 2024)],
         FilterExpr.leaf "company" .equals (.str "Amazon")] :=
  ⟨[FilterExpr.leaf "company" .equals (.str "Amazon"),
    FilterExpr.orAll [.leaf "year" .equals (.num 2023),
                      .leaf "year" .equals (.num 2024)]],
   rfl, List.Perm.swap _ _ _⟩

/-- C5 counterexample: the filter the notebooks build via
`query_financial_data(company="Amazon", year=[2023, 2024])` is NOT a tree
whose internal nodes are only logical-AND nodes — the year list puts a
logical-OR node under the AND node. -/
theorem notebook_filter_not_and_only :
    build_metadata_filter amazonYearsCriteria = some amazonYearsFilterTree ∧
      andOnlyShape amazonYearsFilterTree = false :=
  ⟨rfl, rfl⟩

/-- C5 amended: every metadata filter expression the builder constructs is a
well-formed tagged tree whose leaves are \x7bfield, operator, value\x7d with
operator drawn only from \x7bequals, greaterThanOrEquals, lessThanOrEquals,
startsWith\x7d, and whose internal nodes are logical-AND or logical-OR nodes
combining child filters. -/
theorem built_filters_well_formed (q : QueryCriteria) (f : FilterExpr)
    (h : build_metadata_filter q = some f) : wellFormedFilter f = true := by
  have hconds := wellFormed_filterConds q
  unfold build_metadata_filter at h
  rcases hc : filterConds q with _ | ⟨a, t⟩
  · rw [hc] at h; simp at h
  · rw [hc] at hconds
    rcases t with _ | ⟨b, t2⟩
    · rw [hc] at h
      simp at h
      subst h
      simpa [wellFormedList] using hconds
    · rw [hc] at h
      simp at h
      subst h
      simpa [wellFormedFilter] using hconds

/-- Witness for C5's amended statement: the Amazon/[2023, 2024] filter is
well formed. -/
theorem built_filters_well_formed_witness :
    wellFormedFilter amazonYearsFilterTree = true :=
  built_filters_well_formed amazonYearsCriteria amazonYearsFilterTree rfl

/-- C7: `get_bedrock_token_based_cost` reports exactly the fields
"duration in minutes", "input_tokens", "invocation_count" and
"total token costs"; the token and invocation counts are the ones the
metrics/monitoring API returns for the given model and time interval, and
the total token cost is that token count multiplied by the static price
table. -/
theorem get_bedrock_token_based_cost_report
    (metrics : String → Nat → Nat → TokenMetrics) (model_id : String)
    (start_time end_time : Nat) :
    (get_bedrock_token_based_cost metrics model_id start_time
        end_time).map Prod.fst =
      ["duration in minutes", "input_tokens", "invocation_count",
       "total token costs"] ∧
    (get_bedrock_token_based_cost metrics model_id start_time
        end_time).lookup "input_tokens" =
      some ((metrics model_id start_time end_time).input_tokens : Rat) ∧
    (get_bedrock_token_based_cost metrics model_id start_time
        end_time).lookup "invocation_count" =
      some ((metrics model_id start_time end_time).invocation_count : Rat) ∧
    (get_bedrock_token_based_cost metrics model_id start_time
        end_time).lookup "total token costs" =
      some (((metrics model_id start_time end_time).input_tokens : Rat) *
        bedrock_token_price model_id) := by
  refine ⟨rfl, ?_, ?_, ?_⟩ <;>
    simp [get_bedrock_token_based_cost, List.lookup]

/-- C9: for every workbook it can read, `load_excel_to_df` returns columns
obtained from the first sheet's column names by replacing every space with
an underscore, THEN stripping surrounding whitespace, THEN lowercasing;
consequently every returned column name has no space (32) and no ASCII
uppercase letter. -/
theorem load_excel_columns_normalized (first : Sheet) (rest : List Sheet)
    (df : ExcelDF) (h : load_excel_to_df (first :: rest) = some df) :
    df.columns =
      ((first.colNames.map replaceSpaces).map stripEnds).map lowerStr ∧
    ∀ name ∈ df.columns, ∀ c ∈ name, c ≠ 32 ∧ ¬(65 ≤ c ∧ c ≤ 90) := by
  have hdf : df = process_first_sheet first := by
    simpa [load_excel_to_df] using h.symm
  subst hdf
  refine ⟨rfl, ?_⟩
  intro name hname c hc
  simp only [process_first_sheet, clean_columns, List.mem_map] at hname
  obtain ⟨y, hy, hylow⟩ := hname
  obtain ⟨z, hz, hzstrip⟩ := hy
  obtain ⟨w, _, hwrep⟩ := hz
  subst hylow
  unfold lowerStr at hc
  rw [List.mem_map] at hc
  obtain ⟨d, hd, hdc⟩ := hc
  subst hdc
  subst hzstrip
  have hdz : d ∈ z := mem_of_mem_stripEnds z d hd
  subst hwrep
  have hne : d ≠ 32 := replaceSpaces_no_space w d hdz
  exact ⟨lowerCode_ne_space d hne, lowerCode_not_upper d⟩

/-- Witness for C9: on the workbook whose first sheet has column names
" Ab " and "Year No", the returned columns follow the
replace-strip-lower pipeline and contain no space or uppercase letter
(the leading/trailing spaces of " Ab " survive as underscores: "_ab_"). -/
theorem load_excel_columns_normalized_witness :
    (process_first_sheet exampleSheet).columns =
      ((exampleSheet.colNames.map replaceSpaces).map stripEnds).map
        lowerStr ∧
    ∀ name ∈ (process_first_sheet exampleSheet).columns, ∀ c ∈ name,
      c ≠ 32 ∧ ¬(65 ≤ c ∧ c ≤ 90) :=
  load_excel_columns_normalized exampleSheet []
    (process_first_sheet exampleSheet) rfl

/-- C10: `load_excel_to_df` reads only the first sheet: a workbook headed by
a given sheet always yields exactly that sheet's DataFrame, so two workbooks
sharing their first sheet load identically whatever their other sheets
contain. -/
theorem load_excel_first_sheet_only :
    (∀ (s : Sheet) (rest : List Sheet),
      load_excel_to_df (s :: rest) = some (process_first_sheet s)) ∧
    (∀ (s : Sheet) (r1 r2 : List Sheet),
      load_excel_to_df (s :: r1) = load_excel_to_df (s :: r2)) :=
  ⟨fun _ _ => rfl, fun _ _ _ => rfl⟩
